import Mathlib

/-!
Verification of the houdoku library import/reload core
(`src/apps/desktop/src/renderer/features/library/utils.tsx` and the import
queue consumer in `src/apps/desktop/src/renderer/components/search/SearchGrid.tsx`).

The persistence gateway (the `library` service), the extension gateway
(reached through `ipcRenderer.invoke`), and the `Series`/`Chapter` record
types from `@tiyo/common` are external collaborators that are not part of
the source excerpt; they are modelled from the specification (sections 3
and 6).  Everything else is translated from the TypeScript source.
Toast notifications, console logging, and thumbnail-file side effects are
user-interface / filesystem effects that never touch the persistence layer
and are therefore not part of the state model.
-/

/-- Modelled from the spec (section 3): a `Chapter` record from `@tiyo/common`.
Attributes: local identifier (assigned on first persistence), source
identifier, title, language tag, read flag. -/
structure Chapter where
  id : Option String
  sourceId : String
  title : String
  languageKey : String
  read : Bool
deriving Repr, DecidableEq

/-- Modelled from the spec (section 3): a `Series` record from `@tiyo/common`.
Attributes: generated local identifier (absent until first persisted), the
`(extensionId, sourceId)` pair identifying it at the content source, title,
remote cover URL, status, category memberships, tracker key mapping, the
`numberUnread` counter and the `preview` flag. -/
structure Series where
  id : Option String
  extensionId : String
  sourceId : String
  title : String
  remoteCoverUrl : String
  status : String
  categories : Option (List String)
  trackerKeys : Option (List (String × String))
  numberUnread : Nat
  preview : Bool
deriving Repr, DecidableEq

/-- Modelled from the spec: the identifier of the filesystem pseudo-extension
(`FS_METADATA.id` from `@/common/temp_fs_metadata`, not in the excerpt).  Its
concrete value is opaque; only equality with `Series.extensionId` matters. -/
def fsMetadataId : String := "filesystem"

/-- Modelled from the spec (section 6): the state of the Persistence Gateway,
a synchronous store keyed by generated identifiers.  Chapters are rows keyed
by the identifier of the series they belong to.  The `next*` counters drive
identifier generation. -/
structure LibraryState where
  seriesList : List Series
  chapterRows : List (String × Chapter)
  nextSeriesId : Nat
  nextChapterId : Nat
deriving Repr, DecidableEq

def genSeriesId (n : Nat) : String := "series-" ++ toString n

def genChapterId (n : Nat) : String := "chapter-" ++ toString n

/-- Modelled from the spec (section 6): `fetchSeriesList() -> sequence<Series>`. -/
def fetchSeriesList (st : LibraryState) : List Series := st.seriesList

/-- Modelled from the spec (section 6): `fetchSeries(id) -> Series | absent`. -/
def fetchSeries (st : LibraryState) (i : String) : Option Series :=
  st.seriesList.find? (fun s => s.id == some i)

/-- Modelled from the spec (section 6): `fetchChapters(seriesId) -> sequence<Chapter>`. -/
def fetchChapters (st : LibraryState) (sid : String) : List Chapter :=
  (st.chapterRows.filter (fun r => r.1 == sid)).map (fun r => r.2)

/-- Modelled from the spec (section 6): `upsertSeries(series) -> Series`,
which assigns an identifier if absent and returns the canonical stored
form.  A series that already carries an identifier updates the matching
record in place (re-importing a known series updates rather than
duplicates it, spec 4.2 step 4). -/
def upsertSeries (s : Series) (st : LibraryState) : Series × LibraryState :=
  match s.id with
  | some i =>
    if st.seriesList.any (fun e => e.id == some i) then
      (s, { st with seriesList := st.seriesList.map (fun e => if e.id == some i then s else e) })
    else
      (s, { st with seriesList := st.seriesList ++ [s] })
  | none =>
    let stored := { s with id := some (genSeriesId st.nextSeriesId) }
    (stored, { st with seriesList := st.seriesList ++ [stored],
                       nextSeriesId := st.nextSeriesId + 1 })

/-- Modelled from the spec (sections 3 and 6): upsert of a single chapter row
for the series identified by `sid`; a chapter with a known identifier updates
the matching row, otherwise an identifier is assigned on first persistence. -/
def upsertChapter (sid : String) (st : LibraryState) (ch : Chapter) : LibraryState :=
  match ch.id with
  | some i =>
    if st.chapterRows.any (fun r => r.1 == sid && r.2.id == some i) then
      { st with chapterRows :=
          st.chapterRows.map (fun r => if r.1 == sid && r.2.id == some i then (sid, ch) else r) }
    else
      { st with chapterRows := st.chapterRows ++ [(sid, ch)] }
  | none =>
    let stored := { ch with id := some (genChapterId st.nextChapterId) }
    { st with chapterRows := st.chapterRows ++ [(sid, stored)],
              nextChapterId := st.nextChapterId + 1 }

/-- Modelled from the spec (section 6): `upsertChapters(chapters, series) -> void`. -/
def upsertChapters (chs : List Chapter) (series : Series) (st : LibraryState) : LibraryState :=
  match series.id with
  | some sid => chs.foldl (upsertChapter sid) st
  | none => st

/-- Modelled from the spec (section 6): `removeChapters(ids, seriesId) -> void`. -/
def removeChapters (ids : List String) (sid : String) (st : LibraryState) : LibraryState :=
  let keep : String × Chapter → Bool := fun r =>
    !(r.1 == sid && (match r.2.id with
                     | some i => ids.contains i
                     | none => false))
  { st with chapterRows := st.chapterRows.filter keep }

/-- Modelled from the spec (4.2 step 7): `getNumberUnreadChapters` from
`@/renderer/util/comparison` (not in the excerpt) counts the unread chapters
of the given list. -/
def getNumberUnreadChapters (chapters : List Chapter) : Nat :=
  (chapters.filter (fun c => !c.read)).length

/-- From `utils.tsx` lines 19 to 33: recompute the unread counter of a series
from its persisted chapters, keeping only chapters whose language is in
`chapterLanguages` (or all chapters when the filter list is empty), and write
the updated series back. -/
def updateSeriesNumberUnread (series : Series) (chapterLanguages : List String)
    (st : LibraryState) : LibraryState :=
  match series.id with
  | some sid =>
    let chapters := fetchChapters st sid
    let filtered := chapters.filter (fun chapter =>
      chapterLanguages.contains chapter.languageKey || chapterLanguages.isEmpty)
    (upsertSeries { series with numberUnread := getNumberUnreadChapters filtered } st).2
  | none => st

/-! Natural title ordering.  `utils.tsx` line 127 sorts chapters with
`title.localeCompare(title, undefined, { numeric: true, sensitivity: 'base' })`.
The collation itself is supplied by the JavaScript runtime; it is modelled
from the spec (4.2 step 5) as a case-insensitive comparison that compares
maximal digit runs by numeric value. -/

def digitSpan : List Char → List Char × List Char
  | [] => ([], [])
  | c :: rest =>
    if c.isDigit then
      let s := digitSpan rest
      (c :: s.1, s.2)
    else ([], c :: rest)

def digitsVal (cs : List Char) : Nat :=
  cs.foldl (fun n c => n * 10 + (c.toNat - 48)) 0

def natCmpFuel : Nat → List Char → List Char → Ordering
  | 0, _, _ => Ordering.eq
  | _ + 1, [], [] => Ordering.eq
  | _ + 1, [], _ :: _ => Ordering.lt
  | _ + 1, _ :: _, [] => Ordering.gt
  | fuel + 1, a :: as, b :: bs =>
    if a.isDigit && b.isDigit then
      let sa := digitSpan (a :: as)
      let sb := digitSpan (b :: bs)
      match compare (digitsVal sa.1) (digitsVal sb.1) with
      | Ordering.eq => natCmpFuel fuel sa.2 sb.2
      | o => o
    else
      match compare a.toLower b.toLower with
      | Ordering.eq => natCmpFuel fuel as bs
      | o => o

def naturalCompare (a b : String) : Ordering :=
  natCmpFuel (a.length + b.length + 1) a.toList b.toList

def naturalTitleLe (a b : Chapter) : Bool :=
  match naturalCompare a.title b.title with
  | Ordering.gt => false
  | _ => true

/-- Stable insertion used to model `Array.prototype.sort` with a comparator. -/
def insertBy {α : Type} (le : α → α → Bool) (a : α) : List α → List α
  | [] => [a]
  | b :: bs => if le a b then a :: b :: bs else b :: insertBy le a bs

def insertionSortBy {α : Type} (le : α → α → Bool) : List α → List α
  | [] => []
  | a :: as => insertBy le a (insertionSortBy le as)

/-- Modelled from the spec (section 6): the results the Extension Gateway
delivers to one `importSeries` call.  `getSeriesRes` is the settled result of
`EXTENSION.GET_SERIES` and `getChaptersRes` of `EXTENSION.GET_CHAPTERS`; an
`Except.error` value stands for a rejected invocation. -/
structure ImportEnv where
  getSeriesRes : Except Unit Series
  getChaptersRes : Except Unit (List Chapter)

/-- From `utils.tsx` lines 117 to 118: the caller supplied `remoteCoverUrl`
and `categories` (defaulted to the empty list when absent) are restored onto
the metadata about to be persisted. -/
def importSeriesToAdd (series s0 : Series) : Series :=
  { s0 with remoteCoverUrl := series.remoteCoverUrl,
            categories := some (series.categories.getD []) }

/-- From `utils.tsx` lines 72 to 139 (`importSeries`).  When `getFirst` is
true the series metadata is refetched from the extension, then the chapter
list is fetched; a failure of either fetch propagates as an error before any
write.  The caller supplied `remoteCoverUrl` and `categories` (defaulted to
the empty list) are restored onto the fetched metadata, the series is
upserted keeping the caller identifier, the chapters are sorted by natural
title order and upserted, and the unread counter is recomputed.  Toast
updates are user-interface effects and are not modelled. -/
def importSeries (series : Series) (chapterLanguages : List String) (getFirst : Bool)
    (env : ImportEnv) (st : LibraryState) : Except Unit Series × LibraryState :=
  match (if getFirst then env.getSeriesRes else Except.ok series) with
  | Except.error e => (Except.error e, st)
  | Except.ok s0 =>
    match env.getChaptersRes with
    | Except.error e => (Except.error e, st)
    | Except.ok chapters =>
      let seriesToAdd := importSeriesToAdd series s0
      let upres := upsertSeries { seriesToAdd with id := series.id } st
      let addedSeries := upres.1
      let sortedChapters := insertionSortBy naturalTitleLe chapters
      let st2 := upsertChapters sortedChapters addedSeries upres.2
      let st3 := updateSeriesNumberUnread addedSeries chapterLanguages st2
      (Except.ok addedSeries, st3)

/-! Chapter reconciliation (`utils.tsx` lines 203 to 218).  The loop over the
freshly fetched chapters does two things for each fetched chapter: it copies
the local identifier and read flag from the first existing chapter with the
same source identifier (when that chapter has an identifier), and it splices
that identifier out of the running orphan list with
`splice(indexOf(id), 1)`.  The two assignments are `mergeChapter` and
`orphanStep` below; `reconStep` is one loop iteration. -/

/-- JavaScript `list.splice(list.indexOf(x), 1)`: removes the first occurrence
of `x`; when `x` is absent, `indexOf` yields `-1` and `splice(-1, 1)` removes
the last element instead. -/
def spliceIndexOf (l : List String) (x : String) : List String :=
  if x ∈ l then l.erase x else l.dropLast

def mergeChapter (old : List Chapter) (ch : Chapter) : Chapter :=
  match old.find? (fun c => c.sourceId == ch.sourceId) with
  | some mc =>
    match mc.id with
    | some mid => { ch with id := some mid, read := mc.read }
    | none => ch
  | none => ch

def orphanStep (old : List Chapter) (ids : List String) (ch : Chapter) : List String :=
  match old.find? (fun c => c.sourceId == ch.sourceId) with
  | some mc =>
    match mc.id with
    | some mid => spliceIndexOf ids mid
    | none => ids
  | none => ids

def reconStep (old : List Chapter) (acc : List Chapter × List String) (ch : Chapter) :
    List Chapter × List String :=
  (acc.1 ++ [mergeChapter old ch], orphanStep old acc.2 ch)

/-- From `utils.tsx` lines 204 to 218: the reconciled chapter list together
with the orphaned identifier list.  The orphan list starts as the identifiers
of all existing chapters (an absent identifier contributes the empty
string). -/
def reconcileChapters (old new : List Chapter) : List Chapter × List String :=
  new.foldl (reconStep old) ([], old.map (fun c => c.id.getD ""))

/-- From `utils.tsx` line 171: `Error('Series does not have database ID')`;
line 177: `Error('Could not retrieve extension data')`;
line 186: `Error('Could not get series from extension')`. -/
inductive ReloadError where
  | noDatabaseId
  | extensionNotFound
  | seriesNotFound
deriving Repr, DecidableEq

/-- Modelled from the spec (section 6): the results the gateways deliver to
one `reloadSeries` call.  `extAvailable` is whether `EXTENSION_MANAGER.GET`
found the extension, `fetchedSeries` the settled `EXTENSION.GET_SERIES`
result (`none` for `undefined`), `fetchedChapters` the settled
`EXTENSION.GET_CHAPTERS` result. -/
structure ExtEnv where
  extAvailable : Bool
  fetchedSeries : Option Series
  fetchedChapters : List Chapter
deriving Repr, DecidableEq

/-- From `utils.tsx` lines 194 to 201: a filesystem series keeps the local
record verbatim; any other series takes the fetched metadata but inherits the
local identifier, tracker keys and categories. -/
def reloadNewSeries (series fetched : Series) : Series :=
  if series.extensionId == fsMetadataId then series
  else { fetched with id := series.id,
                      trackerKeys := series.trackerKeys,
                      categories := series.categories }

/-- From `utils.tsx` lines 220 to 224: upsert the merged series, upsert the
reconciled chapters, and remove the orphaned chapters when there are any and
the series has an identifier. -/
def reloadPrune (ns : Series) (recon : List Chapter × List String)
    (st : LibraryState) : LibraryState :=
  let st1 := (upsertSeries ns st).2
  let st2 := upsertChapters recon.1 ns st1
  match ns.id with
  | some nsid => if recon.2.length > 0 then removeChapters recon.2 nsid st2 else st2
  | none => st2

/-- From `utils.tsx` lines 220 to 226: the write phase of `reloadSeries`
followed by the unread recompute.  The cover refresh (lines 230 to 237) is a
fire-and-forget filesystem effect that never touches the persistence layer
and is not modelled. -/
def reloadWrite (ns : Series) (recon : List Chapter × List String)
    (chapterLanguages : List String) (st : LibraryState) : LibraryState :=
  updateSeriesNumberUnread ns chapterLanguages (reloadPrune ns recon st)

/-- From `utils.tsx` lines 159 to 238 (`reloadSeries`).  Returns a recovered
error value when the series has no database identifier, the extension is not
available, or the extension returned no series metadata; otherwise merges the
metadata, reconciles the chapters against the existing ones and writes the
result back. -/
def reloadSeries (series : Series) (chapterLanguages : List String) (env : ExtEnv)
    (st : LibraryState) : Option ReloadError × LibraryState :=
  match series.id with
  | none => (some ReloadError.noDatabaseId, st)
  | some sid =>
    if env.extAvailable then
      match env.fetchedSeries with
      | none => (some ReloadError.seriesNotFound, st)
      | some fetched =>
        (none, reloadWrite (reloadNewSeries series fetched)
          (reconcileChapters (fetchChapters st sid) env.fetchedChapters)
          chapterLanguages st)
    else (some ReloadError.extensionNotFound, st)

/-- State visible to `reloadSeriesList`: the persistence gateway plus the two
pieces of user-interface state it drives through `setSeriesList` and
`setReloadingSeriesList`. -/
structure BatchState where
  lib : LibraryState
  reloading : Bool
  seriesListView : List Series
deriving Repr, DecidableEq

def seriesTitleLe (a b : Series) : Bool := decide (a.title ≤ b.title)

/-- From `utils.tsx` lines 240 to 290 (`reloadSeriesList`).  Sets the
reloading flag, sorts the list by title, reloads each series in order while
counting progress and collecting per-item failures, refreshes the series
list view from the gateway, and clears the reloading flag.  The progress and
summary toasts are user-interface effects and are not modelled. -/
def reloadSeriesList (seriesList : List Series) (chapterLanguages : List String)
    (env : Series → ExtEnv) (bst : BatchState) : BatchState :=
  let sorted := insertionSortBy seriesTitleLe seriesList
  let step : LibraryState × Nat × List Series → Series → LibraryState × Nat × List Series :=
    fun acc series =>
      let r := reloadSeries series chapterLanguages (env series) acc.1
      let failed := match r.1 with
                    | some _ => acc.2.2 ++ [series]
                    | none => acc.2.2
      (r.2, acc.2.1 + 1, failed)
  let final := sorted.foldl step (bst.lib, 0, [])
  { lib := final.1, seriesListView := fetchSeriesList final.1, reloading := false }

/-! Import task queue (`SearchGrid.tsx` lines 259 to 284).  The consumer
effect re-runs whenever the queue or the importing flag changes; when the
flag is clear and the queue is non-empty it sets the flag, removes the head
task, and runs `importSeries` on it; the completion handlers clear the flag
whether the import succeeded or failed, and a failed task is not
re-enqueued.  The effect system is modelled as a transition system whose
events are task enqueues (from the search user interface), consumer wake-ups
and import completions; the spec (section 5) fixes the single-threaded
cooperative scheduling this relies on. -/

/-- From the spec (section 3): an import task `{ series, getFirst }`. -/
structure ImportTask where
  series : Series
  getFirst : Bool
deriving Repr, DecidableEq

structure QueueState where
  queue : List ImportTask
  importing : Bool
  inFlight : Option ImportTask
  processed : List (ImportTask × Bool)
deriving Repr, DecidableEq

inductive QEvent where
  | enqueue (t : ImportTask)
  | check
  | complete (ok : Bool)
deriving Repr, DecidableEq

/-- One event of the consumer system.  `enqueue` appends (producers only
append, spec section 3); `check` is the effect body from `SearchGrid.tsx`
lines 260 to 266; `complete` is the `.then` / `.catch` completion handler
(lines 269 to 281), which clears the flag and records the outcome without
re-enqueueing. -/
def qstep (s : QueueState) : QEvent → QueueState
  | QEvent.enqueue t => { s with queue := s.queue ++ [t] }
  | QEvent.check =>
    match s.importing, s.queue with
    | false, t :: rest =>
      { queue := rest, importing := true, inFlight := some t, processed := s.processed }
    | _, _ => s
  | QEvent.complete ok =>
    match s.inFlight with
    | some t =>
      { queue := s.queue, importing := false, inFlight := none,
        processed := s.processed ++ [(t, ok)] }
    | none => s

def initQueueState : QueueState := { queue := [], importing := false, inFlight := none, processed := [] }

def runQueue (evs : List QEvent) : QueueState := evs.foldl qstep initQueueState

def enqueuedTasks (evs : List QEvent) : List ImportTask :=
  evs.filterMap (fun e => match e with
                          | QEvent.enqueue t => some t
                          | _ => none)

/-- All tasks the system has accepted, in order: processed first, then the
one in flight, then the waiting queue. -/
def pendingAll (s : QueueState) : List ImportTask :=
  s.processed.map Prod.fst ++ s.inFlight.toList ++ s.queue

/-- A full drain schedule: one consumer wake-up followed by one completion
per outcome. -/
def drainEvents : List Bool → List QEvent
  | [] => []
  | o :: os => QEvent.check :: QEvent.complete o :: drainEvents os

/-! Concrete inputs used by witnesses and counterexamples. -/

def sampleSeries : Series :=
  { id := some "S", extensionId := "ext", sourceId := "src1", title := "Title",
    remoteCoverUrl := "cover", status := "ongoing", categories := some [],
    trackerKeys := none, numberUnread := 0, preview := false }

def sampleTask : ImportTask := { series := sampleSeries, getFirst := false }

def sampleTask2 : ImportTask :=
  { series := { sampleSeries with sourceId := "src2" }, getFirst := true }

/-- The persisted chapter of the chapter-identity scenario:
`{sourceId:"1", id:"A", read:true}`. -/
def c1OldChapter : Chapter :=
  { id := some "A", sourceId := "1", title := "old", languageKey := "en", read := true }

/-- The freshly fetched chapter of the chapter-identity scenario:
`{sourceId:"1", title:"Ch.1"}`. -/
def c1NewChapter : Chapter :=
  { id := none, sourceId := "1", title := "Ch.1", languageKey := "en", read := false }

def c1Fetched : Series := { sampleSeries with title := "Title2" }

def c1Env : ExtEnv :=
  { extAvailable := true, fetchedSeries := some c1Fetched, fetchedChapters := [c1NewChapter] }

def c1State : LibraryState :=
  { seriesList := [sampleSeries], chapterRows := [("S", c1OldChapter)],
    nextSeriesId := 0, nextChapterId := 0 }

/-- The second persisted chapter of the orphan-pruning scenario, with source
identifier `"2"`, absent from the fresh fetch. -/
def c2ChapterB : Chapter :=
  { id := some "B", sourceId := "2", title := "two", languageKey := "en", read := false }

def c2Series : Series := sampleSeries

def c2Env : ExtEnv := c1Env

def c2State : LibraryState :=
  { seriesList := [sampleSeries], chapterRows := [("S", c1OldChapter), ("S", c2ChapterB)],
    nextSeriesId := 0, nextChapterId := 0 }

def c3Env1 : ImportEnv := { getSeriesRes := Except.error (), getChaptersRes := Except.ok [] }

def c3Env2 : ImportEnv := { getSeriesRes := Except.ok sampleSeries, getChaptersRes := Except.error () }

def c3State : LibraryState := { seriesList := [], chapterRows := [], nextSeriesId := 0, nextChapterId := 0 }

/-- A filesystem-sourced persisted series with a zero unread counter. -/
def c6Series : Series :=
  { id := some "S", extensionId := fsMetadataId, sourceId := "fs1", title := "Local",
    remoteCoverUrl := "cover", status := "ongoing", categories := some [],
    trackerKeys := none, numberUnread := 0, preview := false }

def c6Fetched : Series := { c6Series with title := "Remote", numberUnread := 42 }

def c6NewChapter : Chapter :=
  { id := none, sourceId := "9", title := "nine", languageKey := "en", read := false }

def c6Env : ExtEnv :=
  { extAvailable := true, fetchedSeries := some c6Fetched, fetchedChapters := [c6NewChapter] }

def c6State : LibraryState :=
  { seriesList := [c6Series], chapterRows := [], nextSeriesId := 0, nextChapterId := 0 }

/-- An extension response carrying series metadata but an empty chapter
list. -/
def c7Env : ExtEnv :=
  { extAvailable := true, fetchedSeries := some c1Fetched, fetchedChapters := [] }

def c9Series : Series :=
  { id := none, extensionId := "ext", sourceId := "s9", title := "Nine",
    remoteCoverUrl := "c", status := "st", categories := none, trackerKeys := none,
    numberUnread := 0, preview := false }

/-- The three chapters of the unread-count example:
`[{read:false,lang:"en"},{read:true,lang:"en"},{read:false,lang:"fr"}]`. -/
def c9Chapters : List Chapter :=
  [ { id := none, sourceId := "a", title := "c1", languageKey := "en", read := false },
    { id := none, sourceId := "b", title := "c2", languageKey := "en", read := true },
    { id := none, sourceId := "c", title := "c3", languageKey := "fr", read := false } ]

def c9Env : ImportEnv := { getSeriesRes := Except.ok c9Series, getChaptersRes := Except.ok c9Chapters }

def c9State : LibraryState := { seriesList := [], chapterRows := [], nextSeriesId := 0, nextChapterId := 0 }

/-- The stored form `importSeries` returns for `c9Series`: the caller record
with normalized categories and the generated identifier. -/
def c9Added : Series :=
  { id := some "series-0", extensionId := "ext", sourceId := "s9", title := "Nine",
    remoteCoverUrl := "c", status := "st", categories := some [], trackerKeys := none,
    numberUnread := 0, preview := false }

def c10Series : Series :=
  { id := none, extensionId := "ext", sourceId := "src1", title := "Mine",
    remoteCoverUrl := "mycover", status := "st", categories := none, trackerKeys := none,
    numberUnread := 0, preview := false }

/-- Metadata fetched with `getFirst = true`, carrying its own cover and
categories that the import must discard. -/
def c10Fetched : Series :=
  { id := none, extensionId := "ext", sourceId := "src1", title := "Fetched",
    remoteCoverUrl := "othercover", status := "st", categories := some ["x"],
    trackerKeys := none, numberUnread := 5, preview := false }

def c10Env : ImportEnv := { getSeriesRes := Except.ok c10Fetched, getChaptersRes := Except.ok [] }

def c10Added : Series :=
  { id := some "series-0", extensionId := "ext", sourceId := "src1", title := "Fetched",
    remoteCoverUrl := "mycover", status := "st", categories := some [], trackerKeys := none,
    numberUnread := 5, preview := false }

/-- The unread counter the code is expected to store: the unread count of
the persisted chapters of `sid`, restricted to the languages of
`chapterLanguages` (or all chapters when the filter list is empty). -/
def recomputedUnread (st : LibraryState) (sid : String) (chapterLanguages : List String) : Nat :=
  getNumberUnreadChapters ((fetchChapters st sid).filter (fun chapter =>
    chapterLanguages.contains chapter.languageKey || chapterLanguages.isEmpty))

/-- The series record `s` with its unread counter replaced by the recomputed
count taken from the state `st`. -/
def storedWithUnread (s : Series) (st : LibraryState) (sid : String)
    (cls : List String) : Series :=
  { s with numberUnread := recomputedUnread st sid cls }

/-! Helper lemmas about the persistence gateway. -/

lemma chapterRows_upsertSeries (s : Series) (st : LibraryState) :
    ((upsertSeries s st).2).chapterRows = st.chapterRows := by
  unfold upsertSeries
  rcases h : s.id with _ | i
  · rfl
  · dsimp only
    split <;> rfl

lemma fetchChapters_upsertSeries (s : Series) (st : LibraryState) (sid : String) :
    fetchChapters (upsertSeries s st).2 sid = fetchChapters st sid := by
  unfold fetchChapters
  rw [chapterRows_upsertSeries]

lemma find?_append_singleton {α : Type} (p : α → Bool) (a : α) :
    ∀ l : List α, l.any p = false → p a = true → (l ++ [a]).find? p = some a := by
  intro l
  induction l with
  | nil =>
    intro _ ha
    simp [List.find?, ha]
  | cons e rest ih =>
    intro hl ha
    rw [List.any_cons] at hl
    have h1 : p e = false := by
      cases hpe : p e <;> simp [hpe] at hl ⊢
    have h2 : rest.any p = false := by
      cases hr : rest.any p <;> simp [hr, h1] at hl ⊢
    rw [List.cons_append, List.find?_cons_of_neg _ (by simp [h1])]
    exact ih h2 ha

lemma find?_map_replace (s : Series) (i : String) (hs : s.id = some i) :
    ∀ l : List Series, l.any (fun e => e.id == some i) = true →
      (l.map (fun e => if e.id == some i then s else e)).find?
        (fun e => e.id == some i) = some s := by
  intro l
  induction l with
  | nil => intro hl; simp at hl
  | cons e rest ih =>
    intro hl
    rw [List.map_cons]
    by_cases he : e.id = some i
    · have hb : (e.id == some i) = true := by simp [he]
      rw [if_pos hb]
      rw [List.find?_cons_of_pos _ (by simp [hs])]
    · have hb : (e.id == some i) = false := by simp [he]
      rw [if_neg (by simp [he])]
      rw [List.find?_cons_of_neg _ (by simp [he])]
      apply ih
      rw [List.any_cons, hb] at hl
      simpa using hl

lemma fetchSeries_upsert (s : Series) (i : String) (st : LibraryState) (h : s.id = some i) :
    fetchSeries (upsertSeries s st).2 i = some s := by
  unfold upsertSeries fetchSeries
  rw [h]
  dsimp only
  split
  case isTrue hany => exact find?_map_replace s i h st.seriesList hany
  case isFalse hany =>
    apply find?_append_singleton
    · cases hb : st.seriesList.any (fun e => e.id == some i)
      · rfl
      · exact absurd hb hany
    · simp [h]

lemma recomputedUnread_upsertSeries (s : Series) (st : LibraryState) (sid : String)
    (cls : List String) :
    recomputedUnread (upsertSeries s st).2 sid cls = recomputedUnread st sid cls := by
  unfold recomputedUnread
  rw [fetchChapters_upsertSeries]

lemma update_unread_final (series : Series) (cls : List String) (st : LibraryState)
    (sid : String) (h : series.id = some sid) :
    fetchSeries (updateSeriesNumberUnread series cls st) sid =
      some (storedWithUnread series (updateSeriesNumberUnread series cls st) sid cls) := by
  have hrw : updateSeriesNumberUnread series cls st =
      (upsertSeries (storedWithUnread series st sid cls) st).2 := by
    unfold updateSeriesNumberUnread
    split
    · rename_i sid' hsid'
      rw [h] at hsid'
      injection hsid' with hss
      subst hss
      rfl
    · rename_i hnone
      rw [h] at hnone
      simp at hnone
  rw [hrw]
  unfold storedWithUnread
  rw [recomputedUnread_upsertSeries]
  exact fetchSeries_upsert _ sid st h

/-! Helper lemmas about `reloadSeries`. -/

lemma reloadNewSeries_id (series fetched : Series) :
    (reloadNewSeries series fetched).id = series.id := by
  unfold reloadNewSeries
  split <;> rfl

lemma reloadSeries_success (series : Series) (cls : List String) (env : ExtEnv)
    (st : LibraryState) (sid : String) (fetched : Series)
    (h1 : series.id = some sid) (h2 : env.extAvailable = true)
    (h3 : env.fetchedSeries = some fetched) :
    reloadSeries series cls env st =
      (none, reloadWrite (reloadNewSeries series fetched)
        (reconcileChapters (fetchChapters st sid) env.fetchedChapters) cls st) := by
  unfold reloadSeries
  rw [h1, h2, h3]
  rfl

lemma reload_stored (series : Series) (cls : List String) (env : ExtEnv)
    (st : LibraryState) (sid : String) (fetched : Series)
    (h1 : series.id = some sid) (h2 : env.extAvailable = true)
    (h3 : env.fetchedSeries = some fetched) :
    fetchSeries (reloadSeries series cls env st).2 sid =
      some (storedWithUnread (reloadNewSeries series fetched)
              (reloadSeries series cls env st).2 sid cls) := by
  rw [reloadSeries_success series cls env st sid fetched h1 h2 h3]
  exact update_unread_final _ cls _ sid (by rw [reloadNewSeries_id]; exact h1)

/-! Helper lemmas about the chapter reconciliation. -/

lemma foldl_reconStep_fst (old : List Chapter) :
    ∀ (l : List Chapter) (acc : List Chapter × List String),
      (l.foldl (reconStep old) acc).1 = acc.1 ++ l.map (mergeChapter old) := by
  intro l
  induction l with
  | nil => intro acc; simp
  | cons ch rest ih =>
    intro acc
    rw [List.foldl_cons, ih, List.map_cons]
    simp [reconStep, List.append_assoc]

lemma foldl_reconStep_snd (old : List Chapter) :
    ∀ (l : List Chapter) (acc : List Chapter × List String),
      (l.foldl (reconStep old) acc).2 = l.foldl (orphanStep old) acc.2 := by
  intro l
  induction l with
  | nil => intro acc; rfl
  | cons ch rest ih =>
    intro acc
    rw [List.foldl_cons, ih, List.foldl_cons]
    rfl

lemma orphan_fold_mem (old : List Chapter)
    (hinj : ∀ x ∈ old, ∀ y ∈ old, x.id.getD "" = y.id.getD "" → x = y) :
    ∀ (l : List Chapter) (ids : List String) (i : String),
      ids.Nodup → i ∈ ids →
      (l.map (fun c => c.sourceId)).Nodup →
      (∀ nc ∈ l, ∀ mc : Chapter,
          old.find? (fun c => c.sourceId == nc.sourceId) = some mc →
          ∀ mid : String, mc.id = some mid → mid ∈ ids ∧ mid ≠ i) →
      i ∈ l.foldl (orphanStep old) ids := by
  intro l
  induction l with
  | nil =>
    intro ids i _ hi _ _
    simpa using hi
  | cons nc rest ih =>
    intro ids i hnd hi hsrc hmatch
    rw [List.map_cons, List.nodup_cons] at hsrc
    rw [List.foldl_cons]
    rcases hfind : old.find? (fun c => c.sourceId == nc.sourceId) with _ | mc
    · have hstep : orphanStep old ids nc = ids := by
        simp [orphanStep, hfind]
      rw [hstep]
      exact ih ids i hnd hi hsrc.2
        (fun nc' hnc' mc' hf' mid' hm' =>
          hmatch nc' (List.mem_cons_of_mem _ hnc') mc' hf' mid' hm')
    · rcases hmcid : mc.id with _ | mid
      · have hstep : orphanStep old ids nc = ids := by
          simp [orphanStep, hfind, hmcid]
        rw [hstep]
        exact ih ids i hnd hi hsrc.2
          (fun nc' hnc' mc' hf' mid' hm' =>
            hmatch nc' (List.mem_cons_of_mem _ hnc') mc' hf' mid' hm')
      · have hmem_ne := hmatch nc (List.mem_cons_self _ _) mc hfind mid hmcid
        have hstep : orphanStep old ids nc = ids.erase mid := by
          simp [orphanStep, hfind, hmcid, spliceIndexOf, hmem_ne.1]
        rw [hstep]
        apply ih (ids.erase mid) i (hnd.erase mid)
          ((List.mem_erase_of_ne (Ne.symm hmem_ne.2)).2 hi) hsrc.2
        intro nc' hnc' mc' hfind' mid' hmid'
        have horig := hmatch nc' (List.mem_cons_of_mem _ hnc') mc' hfind' mid' hmid'
        refine ⟨?_, horig.2⟩
        have hmc_mem : mc ∈ old := List.mem_of_find?_eq_some hfind
        have hmc'_mem : mc' ∈ old := List.mem_of_find?_eq_some hfind'
        have e1 : mc.sourceId = nc.sourceId := by
          have := List.find?_some hfind
          simpa using this
        have e2 : mc'.sourceId = nc'.sourceId := by
          have := List.find?_some hfind'
          simpa using this
        have hsrc_ne : nc.sourceId ≠ nc'.sourceId := by
          intro hcontr
          exact hsrc.1 (hcontr ▸ List.mem_map_of_mem _ hnc')
        have hmid_ne : mid' ≠ mid := by
          intro hcontr
          apply hsrc_ne
          have hmc_eq : mc = mc' := by
            apply hinj mc hmc_mem mc' hmc'_mem
            rw [hmcid, hmid', hcontr]
          rw [← e1, hmc_eq, e2]
        exact (List.mem_erase_of_ne hmid_ne).2 horig.1

/-! Helper lemmas about the import task queue. -/

lemma qstep_pending (s : QueueState) (e : QEvent) (h : s.importing = s.inFlight.isSome) :
    pendingAll (qstep s e) = pendingAll s ++ enqueuedTasks [e]
    ∧ (qstep s e).importing = ((qstep s e).inFlight).isSome := by
  cases e with
  | enqueue t =>
    constructor
    · simp [qstep, pendingAll, enqueuedTasks]
    · exact h
  | check =>
    cases him : s.importing with
    | true =>
      have hq : qstep s QEvent.check = s := by
        unfold qstep
        rw [him]
      rw [hq]
      exact ⟨by simp [enqueuedTasks], h⟩
    | false =>
      have hif : s.inFlight = none := by
        rw [him] at h
        cases hf : s.inFlight
        · rfl
        · rw [hf] at h; simp at h
      cases hq : s.queue with
      | nil =>
        have hs : qstep s QEvent.check = s := by
          unfold qstep
          rw [him, hq]
        rw [hs]
        exact ⟨by simp [enqueuedTasks], h⟩
      | cons t rest =>
        have hs : qstep s QEvent.check =
            { queue := rest, importing := true, inFlight := some t,
              processed := s.processed } := by
          unfold qstep
          rw [him, hq]
        rw [hs]
        constructor
        · simp [pendingAll, hif, hq, enqueuedTasks]
        · rfl
  | complete ok =>
    cases hf : s.inFlight with
    | none =>
      have hs : qstep s (QEvent.complete ok) = s := by
        unfold qstep
        rw [hf]
      rw [hs]
      exact ⟨by simp [enqueuedTasks], h⟩
    | some t =>
      have hs : qstep s (QEvent.complete ok) =
          { queue := s.queue, importing := false, inFlight := none,
            processed := s.processed ++ [(t, ok)] } := by
        unfold qstep
        rw [hf]
      rw [hs]
      constructor
      · simp [pendingAll, hf, enqueuedTasks]
      · rfl

lemma foldl_qstep_invariant :
    ∀ (evs : List QEvent) (s : QueueState), s.importing = s.inFlight.isSome →
      pendingAll (evs.foldl qstep s) = pendingAll s ++ enqueuedTasks evs
      ∧ (evs.foldl qstep s).importing = ((evs.foldl qstep s).inFlight).isSome := by
  intro evs
  induction evs with
  | nil =>
    intro s h
    exact ⟨by simp [enqueuedTasks], h⟩
  | cons e rest ih =>
    intro s h
    have hstep := qstep_pending s e h
    have hrest := ih (qstep s e) hstep.2
    rw [List.foldl_cons]
    constructor
    · rw [hrest.1, hstep.1]
      cases e <;> simp [enqueuedTasks, List.filterMap_cons]
    · exact hrest.2

lemma foldl_enqueues (ts : List ImportTask) :
    ∀ s : QueueState, (ts.map QEvent.enqueue).foldl qstep s = { s with queue := s.queue ++ ts } := by
  induction ts with
  | nil => intro s; simp
  | cons t rest ih =>
    intro s
    rw [List.map_cons, List.foldl_cons]
    have hs : qstep s (QEvent.enqueue t) = { s with queue := s.queue ++ [t] } := rfl
    rw [hs, ih]
    simp

lemma foldl_drain :
    ∀ (outcomes : List Bool) (ts : List ImportTask) (procs : List (ImportTask × Bool)),
      outcomes.length = ts.length →
      (drainEvents outcomes).foldl qstep
          { queue := ts, importing := false, inFlight := none, processed := procs }
        = { queue := [], importing := false, inFlight := none,
            processed := procs ++ ts.zip outcomes } := by
  intro outcomes
  induction outcomes with
  | nil =>
    intro ts procs h
    cases ts with
    | nil => simp [drainEvents]
    | cons t ts' => simp at h
  | cons o os ih =>
    intro ts procs h
    cases ts with
    | nil => simp at h
    | cons t ts' =>
      have h1 : qstep { queue := t :: ts', importing := false, inFlight := none,
                        processed := procs } QEvent.check =
          { queue := ts', importing := true, inFlight := some t, processed := procs } := rfl
      have h2 : qstep { queue := ts', importing := true, inFlight := some t,
                        processed := procs } (QEvent.complete o) =
          { queue := ts', importing := false, inFlight := none,
            processed := procs ++ [(t, o)] } := rfl
      show (QEvent.check :: QEvent.complete o :: drainEvents os).foldl qstep _ = _
      rw [List.foldl_cons, h1, List.foldl_cons, h2,
        ih ts' (procs ++ [(t, o)]) (by simpa using h)]
      simp [List.zip_cons_cons]

/-! Claim theorems. -/

/-- C1: on every reload, each freshly fetched chapter that matches an
existing persisted chapter by source identifier inherits that chapter's
local identifier and read flag in the persisted result; in particular, a
persisted chapter `{sourceId:"1", id:"A", read:true}` and a fresh fetch of
`{sourceId:"1", title:"Ch.1"}` yield a persisted chapter with identifier
`"A"` and `read = true`. -/
theorem reload_preserves_chapter_identity :
    (∀ (old l : List Chapter) (j : Nat) (ch oc : Chapter) (i : String),
        l[j]? = some ch →
        old.find? (fun c => c.sourceId == ch.sourceId) = some oc →
        oc.id = some i →
        ((reconcileChapters old l).1)[j]? =
          some { ch with id := some i, read := oc.read })
    ∧ fetchChapters (reloadSeries sampleSeries [] c1Env c1State).2 "S" =
        [{ id := some "A", sourceId := "1", title := "Ch.1", languageKey := "en",
           read := true }] := by
  constructor
  · intro old l j ch oc i hj hfind hid
    unfold reconcileChapters
    rw [foldl_reconStep_fst, List.nil_append, List.getElem?_map, hj]
    simp [mergeChapter, hfind, hid]
  · decide

theorem reload_preserves_chapter_identity_witness :
    ((reconcileChapters [c1OldChapter] [c1NewChapter]).1)[0]? =
      some { c1NewChapter with id := some "A", read := true } :=
  reload_preserves_chapter_identity.1 [c1OldChapter] [c1NewChapter] 0
    c1NewChapter c1OldChapter "A" rfl (by decide) rfl

/-- C2: on every reload, every persisted chapter whose source identifier is
absent from the fresh fetch has its identifier collected in the orphan list
(given the store invariants that persisted chapter identifiers are distinct
and fetched source identifiers are distinct, spec section 3), and is deleted
after the upsert; in particular persisted chapters with source identifiers
`{"1","2"}` and a fetch returning only `"1"` leave no chapter with source
identifier `"2"`. -/
theorem reload_prunes_orphaned_chapters :
    (∀ (old l : List Chapter) (oc : Chapter) (i : String),
        (old.map (fun c => c.id.getD "")).Nodup →
        (l.map (fun c => c.sourceId)).Nodup →
        oc ∈ old → oc.id = some i →
        (∀ nc ∈ l, nc.sourceId ≠ oc.sourceId) →
        i ∈ (reconcileChapters old l).2)
    ∧ fetchChapters (reloadSeries c2Series [] c2Env c2State).2 "S" =
        [{ id := some "A", sourceId := "1", title := "Ch.1", languageKey := "en",
           read := true }] := by
  constructor
  · intro old l oc i hOld hNew hoc hid hno
    unfold reconcileChapters
    rw [foldl_reconStep_snd]
    apply orphan_fold_mem old
      (fun x hx y hy hf => List.inj_on_of_nodup_map hOld hx hy hf) l _ i hOld
    · have hgd : oc.id.getD "" = i := by rw [hid]; rfl
      exact hgd ▸ List.mem_map_of_mem _ hoc
    · exact hNew
    · intro nc hnc mc hfind mid hmid
      have hmc_mem : mc ∈ old := List.mem_of_find?_eq_some hfind
      constructor
      · have hgd : mc.id.getD "" = mid := by rw [hmid]; rfl
        exact hgd ▸ List.mem_map_of_mem _ hmc_mem
      · intro hcontr
        have hmc_eq : mc = oc := by
          apply List.inj_on_of_nodup_map hOld hmc_mem hoc
          rw [hmid, hid, hcontr]
        have hsrceq : mc.sourceId = nc.sourceId := by
          have := List.find?_some hfind
          simpa using this
        exact hno nc hnc (by rw [← hsrceq, hmc_eq])
  · decide

theorem reload_prunes_orphaned_chapters_witness :
    "B" ∈ (reconcileChapters [c1OldChapter, c2ChapterB] [c1NewChapter]).2 :=
  reload_prunes_orphaned_chapters.1 [c1OldChapter, c2ChapterB] [c1NewChapter]
    c2ChapterB "B" (by decide) (by decide) (by decide) rfl (by decide)

/-- C3: when fetching the series metadata (with `getFirst = true`) or
fetching the chapter list fails, `importSeries` propagates the error and the
persistence layer is left exactly as it was: no partial write occurs. -/
theorem importSeries_no_partial_write :
    ∀ (series : Series) (cls : List String) (getFirst : Bool) (env : ImportEnv)
      (st : LibraryState),
      ((getFirst = true ∧ env.getSeriesRes = Except.error ()) ∨
        env.getChaptersRes = Except.error ()) →
      (importSeries series cls getFirst env st).1 = Except.error ()
      ∧ (importSeries series cls getFirst env st).2 = st := by
  intro series cls getFirst env st h
  unfold importSeries
  rcases h with ⟨hg, hs⟩ | hc
  · rw [hg, if_pos rfl, hs]
    exact ⟨rfl, rfl⟩
  · cases getFirst with
    | false =>
      rw [if_neg (by simp)]
      rw [hc]
      exact ⟨rfl, rfl⟩
    | true =>
      rw [if_pos rfl]
      cases hsr : env.getSeriesRes with
      | error e => exact ⟨rfl, rfl⟩
      | ok s0 =>
        rw [hc]
        exact ⟨rfl, rfl⟩

theorem importSeries_no_partial_write_witness :
    ((importSeries sampleSeries [] true c3Env1 c3State).1 = Except.error ()
      ∧ (importSeries sampleSeries [] true c3Env1 c3State).2 = c3State)
    ∧ ((importSeries sampleSeries [] false c3Env2 c3State).1 = Except.error ()
      ∧ (importSeries sampleSeries [] false c3Env2 c3State).2 = c3State) :=
  ⟨importSeries_no_partial_write sampleSeries [] true c3Env1 c3State (Or.inl ⟨rfl, rfl⟩),
   importSeries_no_partial_write sampleSeries [] false c3Env2 c3State (Or.inr rfl)⟩

/-- C4: the consumer starts a task only when the importing flag is clear and
the queue is non-empty, and then sets the flag and removes exactly the head
task; over every event sequence the accepted tasks are, in order, exactly
the processed ones, then the one in flight, then the waiting queue (strict
FIFO, no drops), and the flag is set exactly while a task is in flight
(at most one import in flight). -/
theorem import_queue_consumer_fifo :
    (∀ s : QueueState, s.importing = true → qstep s QEvent.check = s)
    ∧ (∀ s : QueueState, s.queue = [] → qstep s QEvent.check = s)
    ∧ (∀ (s : QueueState) (t : ImportTask) (rest : List ImportTask),
        s.importing = false → s.queue = t :: rest →
        qstep s QEvent.check =
          { queue := rest, importing := true, inFlight := some t,
            processed := s.processed })
    ∧ (∀ evs : List QEvent,
        pendingAll (runQueue evs) = enqueuedTasks evs
        ∧ (runQueue evs).importing = ((runQueue evs).inFlight).isSome) := by
  refine ⟨?_, ?_, ?_, ?_⟩
  · intro s h
    unfold qstep
    rw [h]
  · intro s h
    unfold qstep
    rw [h]
    rcases s.importing <;> rfl
  · intro s t rest h hq
    unfold qstep
    rw [h, hq]
  · intro evs
    have h := foldl_qstep_invariant evs initQueueState rfl
    unfold runQueue
    refine ⟨?_, h.2⟩
    rw [h.1]
    rfl

theorem import_queue_consumer_fifo_witness :
    qstep { queue := [sampleTask], importing := true, inFlight := some sampleTask,
            processed := [] } QEvent.check
      = { queue := [sampleTask], importing := true, inFlight := some sampleTask,
          processed := [] }
    ∧ qstep initQueueState QEvent.check = initQueueState
    ∧ qstep { queue := [sampleTask, sampleTask2], importing := false, inFlight := none,
              processed := [] } QEvent.check
      = { queue := [sampleTask2], importing := true, inFlight := some sampleTask,
          processed := [] }
    ∧ pendingAll (runQueue [QEvent.enqueue sampleTask, QEvent.check]) = [sampleTask] := by
  refine ⟨import_queue_consumer_fifo.1 _ rfl, import_queue_consumer_fifo.2.1 _ rfl,
    import_queue_consumer_fifo.2.2.1 _ sampleTask [sampleTask2] rfl rfl, ?_⟩
  rw [(import_queue_consumer_fifo.2.2.2 [QEvent.enqueue sampleTask, QEvent.check]).1]
  rfl

/-- C5: when the import of the in-flight task fails, the completion handler
clears the importing flag, records the failure, and leaves the queue
untouched (no re-enqueue); and a queue of any tasks drained under any
per-task outcomes processes every task in order, so one failure never
blocks or poisons the remaining tasks. -/
theorem import_queue_failure_isolation :
    (∀ (s : QueueState) (t : ImportTask), s.inFlight = some t →
        qstep s (QEvent.complete false) =
          { queue := s.queue, importing := false, inFlight := none,
            processed := s.processed ++ [(t, false)] })
    ∧ (∀ (ts : List ImportTask) (outcomes : List Bool), outcomes.length = ts.length →
        runQueue (ts.map QEvent.enqueue ++ drainEvents outcomes) =
          { queue := [], importing := false, inFlight := none,
            processed := ts.zip outcomes }) := by
  constructor
  · intro s t h
    unfold qstep
    rw [h]
  · intro ts outcomes h
    unfold runQueue
    rw [List.foldl_append, foldl_enqueues]
    have hinit : { initQueueState with queue := initQueueState.queue ++ ts } =
        { queue := ts, importing := false, inFlight := none,
          processed := ([] : List (ImportTask × Bool)) } := by
      simp [initQueueState]
    rw [hinit, foldl_drain outcomes ts [] h]
    simp

theorem import_queue_failure_isolation_witness :
    qstep { queue := [sampleTask2], importing := true, inFlight := some sampleTask,
            processed := [] } (QEvent.complete false)
      = { queue := [sampleTask2], importing := false, inFlight := none,
          processed := [(sampleTask, false)] }
    ∧ runQueue ([sampleTask, sampleTask2].map QEvent.enqueue ++ drainEvents [false, true]) =
        { queue := [], importing := false, inFlight := none,
          processed := [(sampleTask, false), (sampleTask2, true)] } := by
  refine ⟨import_queue_failure_isolation.1 _ sampleTask rfl, ?_⟩
  rw [import_queue_failure_isolation.2 [sampleTask, sampleTask2] [false, true] rfl]
  rfl

/-! Helper lemmas about a successful `importSeries`. -/

lemma upsertSeries_fst (s : Series) (st : LibraryState) :
    ∃ i, (upsertSeries s st).1 = { s with id := some i } := by
  unfold upsertSeries
  rcases h : s.id with _ | i
  · simp only [h]
    exact ⟨genSeriesId st.nextSeriesId, rfl⟩
  · refine ⟨i, ?_⟩
    simp only [h]
    have hs : { s with id := some i } = s := by
      rw [← h]
    rw [hs]
    split <;> rfl

lemma importSeries_ok_added (series : Series) (cls : List String) (getFirst : Bool)
    (env : ImportEnv) (st : LibraryState) (added : Series)
    (h : (importSeries series cls getFirst env st).1 = Except.ok added) :
    added.remoteCoverUrl = series.remoteCoverUrl
    ∧ added.categories = some (series.categories.getD [])
    ∧ ∃ i, added.id = some i := by
  unfold importSeries at h
  split at h
  · simp at h
  · rename_i s0 heq
    split at h
    · simp at h
    · rename_i chs heq2
      dsimp only at h
      injection h with h'
      obtain ⟨i, hup⟩ :=
        upsertSeries_fst { importSeriesToAdd series s0 with id := series.id } st
      rw [h'] at hup
      rw [hup]
      exact ⟨rfl, rfl, i, rfl⟩

lemma importSeries_ok_state (series : Series) (cls : List String) (getFirst : Bool)
    (env : ImportEnv) (st : LibraryState) (added : Series)
    (h : (importSeries series cls getFirst env st).1 = Except.ok added) :
    ∃ st2 : LibraryState,
      (importSeries series cls getFirst env st).2 =
        updateSeriesNumberUnread added cls st2 := by
  unfold importSeries at h ⊢
  split at h
  · simp at h
  · rename_i s0 heq
    split at h
    · simp at h
    · rename_i chs heq2
      dsimp only at h ⊢
      injection h with h'
      rw [h']
      exact ⟨_, rfl⟩

/-- C6 counterexample: reloading a filesystem-sourced series can change a
local metadata field.  Here the persisted unread counter is `0` before the
reload and `1` afterwards, because the reload recomputes `numberUnread` from
the freshly persisted chapters even for filesystem series. -/
theorem reload_fs_metadata_not_preserved :
    c6Series.extensionId = fsMetadataId
    ∧ c6Series.numberUnread = 0
    ∧ (fetchSeries (reloadSeries c6Series [] c6Env c6State).2 "S").map
        Series.numberUnread = some 1 := by
  refine ⟨rfl, rfl, ?_⟩
  decide

/-- C6 (amended): on a successful reload, the persisted series record is the
merged record with a recomputed unread counter: for a filesystem-sourced
series every field except `numberUnread` is kept from the local record (the
fetched metadata is discarded), and for any other source every field except
`numberUnread` is taken from the fetched metadata except the inherited local
identifier, tracker-key mapping and category memberships, which are never
overwritten; `numberUnread` is recomputed from the persisted chapters rather
than preserved or fetched. -/
theorem reload_metadata_frame :
    ∀ (series : Series) (cls : List String) (env : ExtEnv) (st : LibraryState)
      (sid : String) (fetched : Series),
      series.id = some sid → env.extAvailable = true →
      env.fetchedSeries = some fetched →
      (reloadSeries series cls env st).1 = none
      ∧ ∃ stored : Series,
          fetchSeries (reloadSeries series cls env st).2 sid = some stored
          ∧ stored.numberUnread = recomputedUnread (reloadSeries series cls env st).2 sid cls
          ∧ (series.extensionId = fsMetadataId →
              stored = { series with numberUnread := stored.numberUnread })
          ∧ (series.extensionId ≠ fsMetadataId →
              stored.id = series.id
              ∧ stored.trackerKeys = series.trackerKeys
              ∧ stored.categories = series.categories
              ∧ stored.extensionId = fetched.extensionId
              ∧ stored.sourceId = fetched.sourceId
              ∧ stored.title = fetched.title
              ∧ stored.remoteCoverUrl = fetched.remoteCoverUrl
              ∧ stored.status = fetched.status
              ∧ stored.preview = fetched.preview) := by
  intro series cls env st sid fetched h1 h2 h3
  constructor
  · rw [reloadSeries_success series cls env st sid fetched h1 h2 h3]
  · refine ⟨storedWithUnread (reloadNewSeries series fetched)
      (reloadSeries series cls env st).2 sid cls,
      reload_stored series cls env st sid fetched h1 h2 h3, rfl, ?_, ?_⟩
    · intro hfs
      have hns : reloadNewSeries series fetched = series := by
        unfold reloadNewSeries
        rw [if_pos (by simp [hfs])]
      unfold storedWithUnread
      rw [hns]
    · intro hfs
      have hns : reloadNewSeries series fetched =
          { fetched with id := series.id, trackerKeys := series.trackerKeys,
                         categories := series.categories } := by
        unfold reloadNewSeries
        rw [if_neg (by simp [hfs])]
      unfold storedWithUnread
      rw [hns]
      exact ⟨rfl, rfl, rfl, rfl, rfl, rfl, rfl, rfl, rfl⟩

theorem reload_metadata_frame_witness :
    (reloadSeries c6Series [] c6Env c6State).1 = none
    ∧ ∃ stored : Series,
        fetchSeries (reloadSeries c6Series [] c6Env c6State).2 "S" = some stored
        ∧ stored.numberUnread = recomputedUnread (reloadSeries c6Series [] c6Env c6State).2 "S" []
        ∧ (c6Series.extensionId = fsMetadataId →
            stored = { c6Series with numberUnread := stored.numberUnread })
        ∧ (c6Series.extensionId ≠ fsMetadataId →
            stored.id = c6Series.id
            ∧ stored.trackerKeys = c6Series.trackerKeys
            ∧ stored.categories = c6Series.categories
            ∧ stored.extensionId = c6Fetched.extensionId
            ∧ stored.sourceId = c6Fetched.sourceId
            ∧ stored.title = c6Fetched.title
            ∧ stored.remoteCoverUrl = c6Fetched.remoteCoverUrl
            ∧ stored.status = c6Fetched.status
            ∧ stored.preview = c6Fetched.preview) :=
  reload_metadata_frame c6Series [] c6Env c6State "S" c6Fetched rfl rfl rfl

/-- C7 counterexample: an extension that returns series metadata but an
empty chapter list does not make `reloadSeries` fail; it succeeds, contrary
to the claim that it fails non-fatally exactly also when the extension
returns no chapters. -/
theorem reload_empty_chapters_not_error :
    c7Env.fetchedChapters = []
    ∧ (reloadSeries sampleSeries [] c7Env c1State).1 = none := by
  exact ⟨rfl, by decide⟩

/-- C7 (amended): `reloadSeries` fails non-fatally, returning a recovered
error value, exactly when the series has no local identifier, or the
originating extension is unavailable, or the extension returns no series
metadata; an empty chapter list is not a failure, and in the error cases
the persistence state is left unchanged. -/
theorem reload_error_iff :
    ∀ (series : Series) (cls : List String) (env : ExtEnv) (st : LibraryState),
      ((reloadSeries series cls env st).1 ≠ none ↔
        (series.id = none ∨ env.extAvailable = false ∨ env.fetchedSeries = none))
      ∧ ((reloadSeries series cls env st).1 ≠ none →
          (reloadSeries series cls env st).2 = st) := by
  intro series cls env st
  unfold reloadSeries
  rcases hid : series.id with _ | sid
  · simp
  · rcases hext : env.extAvailable with _ | _
    · simp
    · rcases hfs : env.fetchedSeries with _ | fetched
      · simp
      · simp

/-- C8: `reloadSeriesList` clears the reloading flag on completion for every
input list, every language filter, every combination of per-item gateway
responses (hence every combination of per-item outcomes, including a batch
in which every item fails), and every starting state. -/
theorem reloadSeriesList_clears_reloading_flag :
    ∀ (seriesList : List Series) (cls : List String) (env : Series → ExtEnv)
      (bst : BatchState),
      (reloadSeriesList seriesList cls env bst).reloading = false := by
  intro seriesList cls env bst
  rfl

/-- C9: after a successful `reloadSeries` or `importSeries`, the persisted
series record carries `numberUnread` equal to the unread count of the
persisted chapters restricted to `chapterLanguages` (all chapters when the
filter is empty); on the three-chapter example the filter `["en"]` yields 1
and the empty filter yields 2. -/
theorem numberUnread_recompute :
    (∀ (series : Series) (cls : List String) (env : ExtEnv) (st : LibraryState)
        (sid : String) (fetched : Series),
        series.id = some sid → env.extAvailable = true →
        env.fetchedSeries = some fetched →
        ∃ stored : Series,
          fetchSeries (reloadSeries series cls env st).2 sid = some stored
          ∧ stored.numberUnread = recomputedUnread (reloadSeries series cls env st).2 sid cls)
    ∧ (∀ (series : Series) (cls : List String) (getFirst : Bool) (env : ImportEnv)
        (st : LibraryState) (added : Series) (sid : String),
        (importSeries series cls getFirst env st).1 = Except.ok added →
        added.id = some sid →
        ∃ stored : Series,
          fetchSeries (importSeries series cls getFirst env st).2 sid = some stored
          ∧ stored.numberUnread =
              recomputedUnread (importSeries series cls getFirst env st).2 sid cls)
    ∧ (fetchSeries (importSeries c9Series ["en"] false c9Env c9State).2 "series-0").map
        Series.numberUnread = some 1
    ∧ (fetchSeries (importSeries c9Series [] false c9Env c9State).2 "series-0").map
        Series.numberUnread = some 2 := by
  refine ⟨?_, ?_, by decide, by decide⟩
  · intro series cls env st sid fetched h1 h2 h3
    exact ⟨storedWithUnread (reloadNewSeries series fetched)
      (reloadSeries series cls env st).2 sid cls,
      reload_stored series cls env st sid fetched h1 h2 h3, rfl⟩
  · intro series cls getFirst env st added sid hok hid
    obtain ⟨st2, hst⟩ := importSeries_ok_state series cls getFirst env st added hok
    refine ⟨storedWithUnread added (importSeries series cls getFirst env st).2 sid cls,
      ?_, rfl⟩
    rw [hst]
    exact update_unread_final added cls st2 sid hid

theorem numberUnread_recompute_witness :
    (∃ stored : Series,
        fetchSeries (reloadSeries sampleSeries [] c1Env c1State).2 "S" = some stored
        ∧ stored.numberUnread = recomputedUnread (reloadSeries sampleSeries [] c1Env c1State).2 "S" [])
    ∧ (∃ stored : Series,
        fetchSeries (importSeries c9Series ["en"] false c9Env c9State).2 "series-0" = some stored
        ∧ stored.numberUnread =
            recomputedUnread (importSeries c9Series ["en"] false c9Env c9State).2 "series-0" ["en"]) :=
  ⟨numberUnread_recompute.1 sampleSeries [] c1Env c1State "S" c1Fetched rfl rfl rfl,
   numberUnread_recompute.2.1 c9Series ["en"] false c9Env c9State c9Added "series-0"
     rfl rfl⟩

/-- C10: every successful `importSeries` returns and persists a series whose
`remoteCoverUrl` and `categories` come from the caller-supplied series, the
categories normalized to the empty list when the caller supplied none; any
categories on metadata fetched with `getFirst = true` are discarded and the
persisted categories field is never absent. -/
theorem importSeries_cover_and_categories :
    ∀ (series : Series) (cls : List String) (getFirst : Bool) (env : ImportEnv)
      (st : LibraryState) (added : Series),
      (importSeries series cls getFirst env st).1 = Except.ok added →
      added.remoteCoverUrl = series.remoteCoverUrl
      ∧ added.categories = some (series.categories.getD [])
      ∧ ∃ (sid : String) (stored : Series),
          added.id = some sid
          ∧ fetchSeries (importSeries series cls getFirst env st).2 sid = some stored
          ∧ stored.remoteCoverUrl = series.remoteCoverUrl
          ∧ stored.categories = some (series.categories.getD []) := by
  intro series cls getFirst env st added hok
  obtain ⟨hcover, hcat, i, hid⟩ := importSeries_ok_added series cls getFirst env st added hok
  obtain ⟨st2, hst⟩ := importSeries_ok_state series cls getFirst env st added hok
  refine ⟨hcover, hcat, i,
    storedWithUnread added (importSeries series cls getFirst env st).2 i cls, hid, ?_, ?_, ?_⟩
  · rw [hst]
    exact update_unread_final added cls st2 i hid
  · exact hcover
  · exact hcat

theorem importSeries_cover_and_categories_witness :
    c10Series.categories = none
    ∧ c10Fetched.categories = some ["x"]
    ∧ (c10Added.remoteCoverUrl = c10Series.remoteCoverUrl
      ∧ c10Added.categories = some (c10Series.categories.getD [])
      ∧ ∃ (sid : String) (stored : Series),
          c10Added.id = some sid
          ∧ fetchSeries (importSeries c10Series [] true c10Env c3State).2 sid = some stored
          ∧ stored.remoteCoverUrl = c10Series.remoteCoverUrl
          ∧ stored.categories = some (c10Series.categories.getD [])) :=
  ⟨rfl, rfl,
   importSeries_cover_and_categories c10Series [] true c10Env c3State c10Added rfl⟩

theorem reload_error_iff_witness :
    ((reloadSeries c9Series [] c1Env c1State).1 ≠ none ↔
      (c9Series.id = none ∨ c1Env.extAvailable = false ∨ c1Env.fetchedSeries = none))
    ∧ ((reloadSeries c9Series [] c1Env c1State).1 ≠ none →
        (reloadSeries c9Series [] c1Env c1State).2 = c1State)
    ∧ (reloadSeries c9Series [] c1Env c1State).2 = c1State := by
  have h := reload_error_iff c9Series [] c1Env c1State
  exact ⟨h.1, h.2, h.2 (by decide)⟩
